import Mathlib

/-!
Verification development for `convert_md_to_pdf.py`, a batch Markdown-to-PDF
converter.  The script enumerates `Concurency/*.md`, sorts the paths, converts
each file through two external library calls (Markdown-to-HTML, HTML-to-PDF),
prints per-file progress lines and a final summary, and never fails the whole
process because of a single file.

The embedding below models:
* paths and path manipulation (`os.path.basename`, `str.replace('.md','.pdf')`);
* the fixed CSS stylesheet and the full HTML document template (the f-string);
* Python's strict UTF-8 text read (`open(..., encoding='utf-8')`) over raw
  file bytes;
* the filesystem as an association list from path to byte content, with
  whole-file overwriting writes;
* the two external libraries as an abstract `Renderer` whose calls may fail
  (raise), returning `Except`;
* `convert_md_to_pdf` and `main` as pure state-passing functions that also
  collect the printed lines;
* module import of `markdown` / `weasyprint` at the top of the file, which
  aborts the process before `main` runs when a dependency is missing.
-/

/-- `os.path.basename`: the part of the path after the last `/` (empty if the
path ends in `/`).  Implemented as a left fold that restarts at each slash. -/
def basename (p : String) : String :=
  ⟨p.data.foldl (fun acc c => if c = '/' then [] else acc ++ [c]) []⟩

/-- Python `str.replace('.md', '.pdf')`: replace every non-overlapping
occurrence of `".md"` left to right (the pattern has no self-overlap, so this
three-character look-ahead recursion is exactly Python's semantics). -/
def replaceMdPdf : List Char → List Char
  | '.' :: 'm' :: 'd' :: rest => '.' :: 'p' :: 'd' :: 'f' :: replaceMdPdf rest
  | c :: rest => c :: replaceMdPdf rest
  | [] => []

/-- Line 142 of the script: `pdf_file = md_file.replace('.md', '.pdf')`. -/
def pdfName (p : String) : String := ⟨replaceMdPdf p.data⟩

/-- Does the character list begin with `".md"`? -/
def startsMd : List Char → Bool
  | '.' :: 'm' :: 'd' :: _ => true
  | _ => false

/-- Does the character list contain `".md"` as a contiguous substring? -/
def hasMd : List Char → Bool
  | [] => false
  | c :: rest => startsMd (c :: rest) || hasMd rest

/-- The `glob.glob("Concurency/*.md")` filename filter: the path starts with
`Concurency/`, the remaining name is a single component (no `/`), does not
start with a dot (glob's `*` skips hidden files) and ends with `.md`. -/
def matchesGlob (p : String) : Bool :=
  "Concurency/".data.isPrefixOf p.data &&
  !startsDot (p.data.drop 11) &&
  ".md".data.isSuffixOf (p.data.drop 11) &&
  !(p.data.drop 11).contains '/'
where
  startsDot : List Char → Bool
    | '.' :: _ => true
    | _ => false

/-- The fixed inline stylesheet (`css_content`, lines 25-85 of the script),
transcribed line for line; the Python triple-quoted literal starts with a
newline and ends with a newline plus the eight-space indent of the closing
quotes. -/
def css_content : String := String.intercalate "\n" [
  "",
  "        body \x7b",
  "            font-family: \x27Segoe UI\x27, Tahoma, Geneva, Verdana, sans-serif;",
  "            line-height: 1.6;",
  "            margin: 40px;",
  "            color: #333;",
  "        \x7d",
  "        h1, h2, h3, h4, h5, h6 \x7b",
  "            color: #2c3e50;",
  "            margin-top: 30px;",
  "            margin-bottom: 15px;",
  "        \x7d",
  "        h1 \x7b font-size: 28px; border-bottom: 2px solid #3498db; padding-bottom: 10px; \x7d",
  "        h2 \x7b font-size: 24px; border-bottom: 1px solid #bdc3c7; padding-bottom: 5px; \x7d",
  "        h3 \x7b font-size: 20px; \x7d",
  "        h4 \x7b font-size: 18px; \x7d",
  "        code \x7b",
  "            background-color: #f8f9fa;",
  "            padding: 2px 4px;",
  "            border-radius: 3px;",
  "            font-family: \x27Courier New\x27, monospace;",
  "        \x7d",
  "        pre \x7b",
  "            background-color: #f8f9fa;",
  "            padding: 15px;",
  "            border-radius: 5px;",
  "            border-left: 4px solid #3498db;",
  "            overflow-x: auto;",
  "        \x7d",
  "        pre code \x7b",
  "            background-color: transparent;",
  "            padding: 0;",
  "        \x7d",
  "        table \x7b",
  "            border-collapse: collapse;",
  "            width: 100%;",
  "            margin: 20px 0;",
  "        \x7d",
  "        th, td \x7b",
  "            border: 1px solid #ddd;",
  "            padding: 12px;",
  "            text-align: left;",
  "        \x7d",
  "        th \x7b",
  "            background-color: #f2f2f2;",
  "            font-weight: bold;",
  "        \x7d",
  "        ul, ol \x7b",
  "            margin: 15px 0;",
  "            padding-left: 30px;",
  "        \x7d",
  "        li \x7b",
  "            margin: 5px 0;",
  "        \x7d",
  "        blockquote \x7b",
  "            border-left: 4px solid #3498db;",
  "            margin: 20px 0;",
  "            padding: 10px 20px;",
  "            background-color: #f8f9fa;",
  "        \x7d",
  "        "]

/-- The f-string document template up to the `<title>` interpolation. -/
def doc_before_title : String :=
  "\n        <!DOCTYPE html>\n        <html>\n        <head>\n            <meta charset=\"utf-8\">\n            <title>"

/-- Between the `<title>` interpolation and the `<style>` interpolation. -/
def doc_after_title : String := "</title>\n            <style>"

/-- Between the `<style>` interpolation and the `{html}` interpolation. -/
def doc_after_style : String :=
  "</style>\n        </head>\n        <body>\n            "

/-- After the `{html}` interpolation to the end of the f-string. -/
def doc_tail : String := "\n        </body>\n        </html>\n        "

/-- The full HTML document built at lines 88-100 of the script:
`f"""...<title>{os.path.basename(md_file_path)}</title>
<style>{css_content}</style>...{html}..."""`. -/
def full_html (md_file_path html : String) : String :=
  doc_before_title ++ basename md_file_path ++ doc_after_title ++ css_content ++
    doc_after_style ++ html ++ doc_tail

/-- A UTF-8 continuation byte (`0x80`-`0xBF`). -/
def utf8Cont (b : Nat) : Bool := 0x80 ≤ b && b ≤ 0xBF

/-- Strict UTF-8 decoding of a byte list into code points, as performed by
Python's `open(path, 'r', encoding='utf-8')` (RFC 3629: overlong encodings,
surrogates and code points above `U+10FFFF` are rejected).  `none` models a
raised `UnicodeDecodeError`. -/
def utf8Decode? : List Nat → Option (List Nat)
  | [] => some []
  | b :: bs =>
    if b ≤ 0x7F then (utf8Decode? bs).map (fun cs => b :: cs)
    else if 0xC2 ≤ b && b ≤ 0xDF then
      match bs with
      | b1 :: bs1 =>
        if utf8Cont b1 then
          (utf8Decode? bs1).map (fun cs => ((b - 0xC0) * 0x40 + (b1 - 0x80)) :: cs)
        else none
      | [] => none
    else if 0xE0 ≤ b && b ≤ 0xEF then
      match bs with
      | b1 :: b2 :: bs2 =>
        if (if b = 0xE0 then 0xA0 ≤ b1 && b1 ≤ 0xBF
            else if b = 0xED then 0x80 ≤ b1 && b1 ≤ 0x9F
            else utf8Cont b1) && utf8Cont b2 then
          (utf8Decode? bs2).map
            (fun cs => ((b - 0xE0) * 0x1000 + (b1 - 0x80) * 0x40 + (b2 - 0x80)) :: cs)
        else none
      | _ => none
    else if 0xF0 ≤ b && b ≤ 0xF4 then
      match bs with
      | b1 :: b2 :: b3 :: bs3 =>
        if (if b = 0xF0 then 0x90 ≤ b1 && b1 ≤ 0xBF
            else if b = 0xF4 then 0x80 ≤ b1 && b1 ≤ 0x8F
            else utf8Cont b1) && utf8Cont b2 && utf8Cont b3 then
          (utf8Decode? bs3).map
            (fun cs => ((b - 0xF0) * 0x40000 + (b1 - 0x80) * 0x1000 +
              (b2 - 0x80) * 0x40 + (b3 - 0x80)) :: cs)
        else none
      | _ => none
    else none

/-- Pack decoded code points into a string. -/
def utf8Str (cps : List Nat) : String := ⟨cps.map Char.ofNat⟩

/-- The filesystem: an association list from path to raw byte content.
Earlier entries shadow later ones on lookup; writes replace in place. -/
abbrev FS : Type := List (String × List Nat)

/-- Read a file's bytes (first entry with a matching path). -/
def FS.read : FS → String → Option (List Nat)
  | [], _ => none
  | e :: rest, p => if e.1 = p then some e.2 else FS.read rest p

/-- Is a path present in the filesystem? -/
def FS.keyPresent : FS → String → Bool
  | [], _ => false
  | e :: rest, p => decide (e.1 = p) || FS.keyPresent rest p

/-- Replace the content of every entry whose path matches. -/
def FS.writeAll : FS → String → List Nat → FS
  | [], _, _ => []
  | e :: rest, p, c => (if e.1 = p then (e.1, c) else e) :: FS.writeAll rest p c

/-- Whole-file write: overwrite the existing file, or create it (appended at
the end of the directory listing). -/
def FS.write (S : FS) (p : String) (c : List Nat) : FS :=
  if S.keyPresent p then S.writeAll p c else S ++ [(p, c)]

/-- The two external libraries, abstracted: `markdown.markdown(content,
extensions=['codehilite', 'fenced_code', 'tables'])` and
`HTML(string=full_html).write_pdf(...)` (together with the `CSS`/
`FontConfiguration` construction it consumes).  Either call may raise, which
`Except.error` models with the exception's message text. -/
structure Renderer where
  render : String → Except String String
  pdf : String → Except String (List Nat)

/-- The diagnostic printed by the `except` handler at line 112:
`f"Error converting {md_file_path}: {str(e)}"`. -/
def errLine (md_file_path e : String) : String :=
  "Error converting " ++ md_file_path ++ ": " ++ e

/-- Error text modelling `str(FileNotFoundError)` from the `open` call. -/
def noFileMsg (md_file_path : String) : String :=
  "[Errno 2] No such file or directory: \x27" ++ md_file_path ++ "\x27"

/-- Error text modelling `str(UnicodeDecodeError)` from the strict UTF-8 read. -/
def decodeErrMsg : String :=
  "\x27utf-8\x27 codec can\x27t decode byte: invalid UTF-8"

/-- The body of the `try` block of `convert_md_to_pdf`, as a function of the
bytes found at the input path: read and decode the file, render Markdown to
HTML, build the full document, render it to PDF bytes.  The first failing
stage's exception is the result. -/
def pipelineResult (R : Renderer) (bytes? : Option (List Nat))
    (md_file_path : String) : Except String (List Nat) :=
  match bytes? with
  | none => .error (noFileMsg md_file_path)
  | some bs =>
    match utf8Decode? bs with
    | none => .error decodeErrMsg
    | some cps =>
      match R.render (utf8Str cps) with
      | .error e => .error e
      | .ok html => R.pdf (full_html md_file_path html)

/-- `convert_md_to_pdf(md_file_path, output_path)` (lines 14-113): on success
the PDF bytes are written to `output_path` and the function returns `True`
with nothing printed; on any exception the error line is printed, the
filesystem is untouched and the function returns `False`.  Result:
`(new filesystem, returned flag, printed lines)`. -/
def convert_md_to_pdf (R : Renderer) (fs : FS) (md_file_path output_path : String) :
    FS × Bool × List String :=
  match pipelineResult R (fs.read md_file_path) md_file_path with
  | .error e => (fs, false, [errLine md_file_path e])
  | .ok pdfBytes => (fs.write output_path pdfBytes, true, [])

/-- `glob.glob("Concurency/*.md")`: the existing paths that match the
pattern, in directory order. -/
def globMd (fs : FS) : List String := (fs.map Prod.fst).filter matchesGlob

/-- Lines 129-130: the glob result followed by `md_files.sort()`
(ascending lexicographic order on code points). -/
def sortedMdFiles (fs : FS) : List String :=
  (globMd fs).mergeSort (fun a b => decide (a ≤ b))

def startMsg : String := "Starting conversion of markdown files to PDF..."

def noneFoundMsg : String := "No markdown files found in the Concurency folder"

def foundMsg (n : Nat) : String :=
  "Found " ++ toString n ++ " markdown files to convert"

def convertingMsg (md_file pdf_file : String) : String :=
  "Converting: " ++ basename md_file ++ " -> " ++ basename pdf_file

def successMsg (pdf_file : String) : String :=
  "✓ Successfully converted: " ++ basename pdf_file

def failedMsg (md_file : String) : String :=
  "✗ Failed to convert: " ++ basename md_file

def summaryMsg (success total : Nat) : String :=
  "\nConversion completed! " ++ toString success ++ "/" ++ toString total ++
    " files converted successfully."

def checkFolderMsg : String :=
  "Check the Concurency folder for the generated PDF files."

/-- One iteration of the `for md_file in md_files:` loop (lines 141-149),
threading the filesystem, the success counter and the printed lines. -/
def batchStep (R : Renderer) (acc : FS × Nat × List String) (md_file : String) :
    FS × Nat × List String :=
  let pdf_file := pdfName md_file
  let c := convert_md_to_pdf R acc.1 md_file pdf_file
  if c.2.1 then
    (c.1, acc.2.1 + 1,
      acc.2.2 ++ [convertingMsg md_file pdf_file] ++ c.2.2 ++ [successMsg pdf_file])
  else
    (c.1, acc.2.1,
      acc.2.2 ++ [convertingMsg md_file pdf_file] ++ c.2.2 ++ [failedMsg md_file])

/-- The result of one run of `main()`: everything printed to stdout, the
final filesystem, the success counter and the number of matched files. -/
structure RunResult where
  out : List String
  fs : FS
  success : Nat
  total : Nat

/-- `main()` (lines 115-152), for a process in which the module imports have
already succeeded (so the inner `import` check passes). -/
def mainRun (R : Renderer) (fs : FS) : RunResult :=
  let md_files := sortedMdFiles fs
  if md_files = [] then
    { out := [startMsg, noneFoundMsg], fs := fs, success := 0, total := 0 }
  else
    let r := md_files.foldl (batchStep R) (fs, 0, [])
    { out := [startMsg, foundMsg md_files.length] ++ r.2.2 ++
        [summaryMsg r.2.1 md_files.length, checkFolderMsg],
      fs := r.1, success := r.2.1, total := md_files.length }

/-- Which third-party dependencies are importable. -/
structure Deps where
  markdown : Bool
  weasyprint : Bool

/-- Observable outcome of the whole process: stdout lines, final filesystem,
exit status. -/
structure ProgResult where
  out : List String
  fs : FS
  exitCode : Nat

/-- The whole script run as `python convert_md_to_pdf.py`: the top-level
`import markdown` / `from weasyprint import ...` (lines 9-11) run before
anything else; if either module is missing the uncaught `ModuleNotFoundError`
terminates the process with a traceback on stderr, exit status 1 and nothing
on stdout — the installation-hint handler inside `main` (lines 120-126) is
never reached.  Otherwise `main()` runs and the process exits 0. -/
def programRun (d : Deps) (R : Renderer) (fs : FS) : ProgResult :=
  if d.markdown && d.weasyprint then
    let r := mainRun R fs
    { out := r.out, fs := r.fs, exitCode := 0 }
  else
    { out := [], fs := fs, exitCode := 1 }

/-- The installation hint printed by the dead handler at line 125. -/
def installHintMsg : String :=
  "Please install them using: pip install markdown weasyprint"

/-! ### Write sequences -/

/-- Apply a sequence of whole-file writes in order. -/
def applyWrites (S : FS) (ws : List (String × List Nat)) : FS :=
  ws.foldl (fun s w => s.write w.1 w.2) S

/-- The content of the last write to `p` in the sequence, if any. -/
def wlookup (ws : List (String × List Nat)) (p : String) : Option (List Nat) :=
  (ws.reverse.find? (fun w => decide (w.1 = p))).map Prod.snd

/-! ### Trace of a batch run -/

def traceResults (R : Renderer) (readF : String → Option (List Nat))
    (mds : List String) : List (Except String (List Nat)) :=
  mds.map (fun md => pipelineResult R (readF md) md)

def traceWrites (R : Renderer) (readF : String → Option (List Nat))
    (mds : List String) : List (String × List Nat) :=
  mds.filterMap (fun md =>
    match pipelineResult R (readF md) md with
    | .ok bs => some (pdfName md, bs)
    | .error _ => none)

def stepLines (md : String) : Except String (List Nat) → List String
  | .ok _ => [convertingMsg md (pdfName md), successMsg (pdfName md)]
  | .error e => [convertingMsg md (pdfName md), errLine md e, failedMsg md]

def traceLines (R : Renderer) (readF : String → Option (List Nat))
    (mds : List String) : List String :=
  (mds.map (fun md => stepLines md (pipelineResult R (readF md) md))).flatten

def countOk (rs : List (Except String (List Nat))) : Nat :=
  rs.countP (fun r => r.isOk)

/-! ### Example inputs used by the witnesses -/

/-- A renderer whose two library calls always succeed. -/
def exampleRenderer : Renderer :=
  { render := fun s => .ok s, pdf := fun _ => .ok [37, 80, 68, 70] }

/-- A renderer whose two library calls always raise. -/
def failingRenderer : Renderer :=
  { render := fun _ => .error "render failure", pdf := fun _ => .error "pdf failure" }

/-- A directory with one matching Markdown file. -/
def exampleFS : FS := [("Concurency/a.md", [104, 105])]

/-- A directory with no matching Markdown file. -/
def exampleFS2 : FS := [("notes.txt", [104])]

/-- A directory whose one matching file holds invalid UTF-8 bytes. -/
def badUtf8FS : FS := [("Concurency/b.md", [255])]


/-! ### Lemmas about `.md` → `.pdf` replacement -/

theorem startsMd_iff {l : List Char} :
    startsMd l = true ↔ ∃ t, l = '.' :: 'm' :: 'd' :: t := by
  constructor
  · intro h
    rw [startsMd.eq_def] at h
    split at h
    · rename_i t
      exact ⟨t, rfl⟩
    · exact absurd h (by simp)
  · rintro ⟨t, rfl⟩
    rfl

theorem replaceMdPdf_cons_of_not {c : Char} {rest : List Char}
    (h : ∀ t, c = '.' → rest = 'm' :: 'd' :: t → False) :
    replaceMdPdf (c :: rest) = c :: replaceMdPdf rest := by
  rw [replaceMdPdf.eq_def]
  split
  · rename_i t heq
    injection heq with h1 h2
    exact absurd (h t h1 h2) (by simp)
  · rename_i heq
    injection heq with h1 h2
    rw [h1, h2]
  · rename_i heq
    exact absurd heq (by simp)

theorem startsMd_false_elim {c : Char} {rest : List Char}
    (h : startsMd (c :: rest) = false) :
    ∀ t, c = '.' → rest = 'm' :: 'd' :: t → False := by
  intro t h1 h2
  rw [h1, h2] at h
  simp [startsMd] at h

/-- If the replaced list starts with `'d'`, so did the original. -/
theorem head_d_of_replaceMdPdf {r t : List Char}
    (h : replaceMdPdf r = 'd' :: t) : ∃ t2, r = 'd' :: t2 := by
  induction r using replaceMdPdf.induct with
  | case1 rest _ =>
    rw [show replaceMdPdf ('.' :: 'm' :: 'd' :: rest) =
      '.' :: 'p' :: 'd' :: 'f' :: replaceMdPdf rest from rfl] at h
    injection h with h1 _
    exact absurd h1 (by decide)
  | case2 c rest hnot _ =>
    rw [replaceMdPdf_cons_of_not hnot] at h
    injection h with h1 _
    exact ⟨rest, by rw [h1]⟩
  | case3 =>
    exact absurd h (by simp [replaceMdPdf])

/-- If the replaced list starts with `"md"`, so did the original. -/
theorem head_md_of_replaceMdPdf {r t : List Char}
    (h : replaceMdPdf r = 'm' :: 'd' :: t) : ∃ t2, r = 'm' :: 'd' :: t2 := by
  induction r using replaceMdPdf.induct with
  | case1 rest _ =>
    rw [show replaceMdPdf ('.' :: 'm' :: 'd' :: rest) =
      '.' :: 'p' :: 'd' :: 'f' :: replaceMdPdf rest from rfl] at h
    injection h with h1 _
    exact absurd h1 (by decide)
  | case2 c rest hnot _ =>
    rw [replaceMdPdf_cons_of_not hnot] at h
    injection h with h1 h2
    obtain ⟨t2, ht2⟩ := head_d_of_replaceMdPdf h2
    exact ⟨t2, by rw [h1, ht2]⟩
  | case3 =>
    exact absurd h (by simp [replaceMdPdf])

/-- The output of the `.md` → `.pdf` replacement never contains `".md"`. -/
theorem hasMd_replaceMdPdf (l : List Char) : hasMd (replaceMdPdf l) = false := by
  induction l using replaceMdPdf.induct with
  | case1 rest ih =>
    rw [show replaceMdPdf ('.' :: 'm' :: 'd' :: rest) =
      '.' :: 'p' :: 'd' :: 'f' :: replaceMdPdf rest from rfl]
    simpa [hasMd, startsMd] using ih
  | case2 c rest hnot ih =>
    rw [replaceMdPdf_cons_of_not hnot]
    rw [hasMd]
    refine Bool.or_eq_false_iff.mpr ⟨?_, ih⟩
    by_contra hs
    obtain ⟨t, ht⟩ := startsMd_iff.mp (Bool.of_not_eq_false hs)
    injection ht with h1 h2
    obtain ⟨t2, ht2⟩ := head_md_of_replaceMdPdf h2
    exact hnot t2 h1 ht2
  | case3 => rfl

/-- Any list with `".md"` as a suffix contains `".md"`. -/
theorem hasMd_append_md (t rest : List Char) :
    hasMd (t ++ '.' :: 'm' :: 'd' :: rest) = true := by
  induction t with
  | nil => rfl
  | cons c t ih =>
    rw [List.cons_append, hasMd, ih]
    simp

theorem hasMd_of_md_suffix {q : List Char} (h : ['.', 'm', 'd'] <:+ q) :
    hasMd q = true := by
  obtain ⟨t, rfl⟩ := h
  exact hasMd_append_md t []

/-- On a list that nowhere contains `".md"`, appending `".md"` and replacing
swaps exactly the final extension. -/
theorem replaceMdPdf_no_md {s : List Char} (h : hasMd s = false) :
    replaceMdPdf (s ++ ['.', 'm', 'd']) = s ++ ['.', 'p', 'd', 'f'] := by
  induction s with
  | nil => rfl
  | cons c s ih =>
    rw [hasMd] at h
    obtain ⟨h1, h2⟩ := Bool.or_eq_false_iff.mp h
    rw [List.cons_append, replaceMdPdf_cons_of_not, ih h2, List.cons_append]
    intro t hc hs
    match s, hs with
    | [], hs =>
      injection hs with hx _
      exact absurd hx (by decide)
    | [x], hs =>
      injection hs with _ hs'
      injection hs' with hx _
      exact absurd hx (by decide)
    | x :: y :: s, hs =>
      injection hs with hx hs'
      injection hs' with hy _
      exact startsMd_false_elim h1 s hc (by rw [hx, hy])

/-! ### Glob and path lemmas -/

theorem matchesGlob_md_suffix {p : String} (h : matchesGlob p = true) :
    ['.', 'm', 'd'] <:+ p.data := by
  rw [matchesGlob] at h
  simp only [Bool.and_eq_true] at h
  have hsuf : ['.', 'm', 'd'] <:+ p.data.drop 11 :=
    List.isSuffixOf_iff_suffix.mp h.1.2
  exact hsuf.trans (List.drop_suffix 11 p.data)

theorem hasMd_pdfName (s : String) : hasMd (pdfName s).data = false :=
  hasMd_replaceMdPdf s.data

/-- A derived output path never coincides with any path that ends in `".md"`
(in particular with any glob-matched input path). -/
theorem pdfName_ne_of_md_suffix {s q : String} (h : ['.', 'm', 'd'] <:+ q.data) :
    pdfName s ≠ q := by
  intro he
  have h1 : hasMd q.data = true := hasMd_of_md_suffix h
  rw [← he] at h1
  rw [hasMd_pdfName] at h1
  exact Bool.false_ne_true h1

/-- A derived output path is never matched by the `*.md` glob pattern. -/
theorem matchesGlob_pdfName (s : String) : matchesGlob (pdfName s) = false := by
  by_contra h
  have h' := matchesGlob_md_suffix (Bool.of_not_eq_false h)
  exact pdfName_ne_of_md_suffix h' rfl

/-! ### Filesystem lemmas -/

theorem FS.read_of_not_keyPresent {S : FS} {p : String}
    (h : S.keyPresent p = false) : S.read p = none := by
  induction S with
  | nil => rfl
  | cons e rest ih =>
    rw [FS.keyPresent, Bool.or_eq_false_iff] at h
    rw [FS.read, if_neg (by simpa using h.1)]
    exact ih h.2

theorem FS.read_writeAll_self {S : FS} {p : String} {c : List Nat}
    (h : S.keyPresent p = true) : (S.writeAll p c).read p = some c := by
  induction S with
  | nil => exact absurd h (by simp [FS.keyPresent])
  | cons e rest ih =>
    rw [FS.writeAll]
    by_cases he : e.1 = p
    · rw [if_pos he, FS.read, if_pos he]
    · rw [if_neg he, FS.read, if_neg he]
      rw [FS.keyPresent, Bool.or_eq_true] at h
      exact ih (h.resolve_left (by simpa using he))

theorem FS.read_writeAll_ne {S : FS} {p q : String} {c : List Nat}
    (h : q ≠ p) : (S.writeAll p c).read q = S.read q := by
  induction S with
  | nil => rfl
  | cons e rest ih =>
    rw [FS.writeAll]
    by_cases he : e.1 = p
    · rw [if_pos he, FS.read, FS.read]
      rw [if_neg (by rw [he]; exact fun hpq => h hpq.symm),
        if_neg (by rw [he]; exact fun hpq => h hpq.symm)]
      exact ih
    · rw [if_neg he, FS.read, FS.read]
      by_cases heq : e.1 = q
      · rw [if_pos heq, if_pos heq]
      · rw [if_neg heq, if_neg heq]
        exact ih

theorem FS.read_append (S T : FS) (q : String) :
    FS.read (S ++ T) q = (S.read q).or (T.read q) := by
  induction S with
  | nil => rw [List.nil_append]; rfl
  | cons e rest ih =>
    rw [List.cons_append, FS.read, FS.read]
    by_cases he : e.1 = q
    · rw [if_pos he, if_pos he]; rfl
    · rw [if_neg he, if_neg he, ih]

/-- Whole-file write then read: the written path reads the new content, every
other path is untouched. -/
theorem FS.read_write (S : FS) (p q : String) (c : List Nat) :
    (S.write p c).read q = if q = p then some c else S.read q := by
  rw [FS.write]
  by_cases hk : S.keyPresent p
  · rw [if_pos hk]
    by_cases hq : q = p
    · rw [if_pos hq, hq]
      exact FS.read_writeAll_self hk
    · rw [if_neg hq]
      exact FS.read_writeAll_ne hq
  · rw [if_neg hk, FS.read_append]
    by_cases hq : q = p
    · rw [if_pos hq, hq, FS.read_of_not_keyPresent (Bool.of_not_eq_true hk)]
      rw [Option.none_or, FS.read, if_pos rfl]
    · rw [if_neg hq, FS.read, if_neg (fun h => hq h.symm)]
      rw [show FS.read [] q = none from rfl, Option.or_none]

theorem FS.writeAll_keys (S : FS) (p : String) (c : List Nat) :
    (S.writeAll p c).map Prod.fst = S.map Prod.fst := by
  induction S with
  | nil => rfl
  | cons e rest ih =>
    rw [FS.writeAll, List.map_cons, List.map_cons, ih]
    by_cases he : e.1 = p
    · rw [if_pos he]
    · rw [if_neg he]

theorem FS.write_keys (S : FS) (p : String) (c : List Nat) :
    (S.write p c).map Prod.fst = S.map Prod.fst ∨
    (S.write p c).map Prod.fst = S.map Prod.fst ++ [p] := by
  rw [FS.write]
  by_cases hk : S.keyPresent p
  · rw [if_pos hk]
    exact Or.inl (S.writeAll_keys p c)
  · rw [if_neg hk, List.map_append]
    exact Or.inr rfl

/-- Writing a path the glob does not match leaves the glob result unchanged. -/
theorem globMd_write (S : FS) (p : String) (c : List Nat)
    (h : matchesGlob p = false) : globMd (S.write p c) = globMd S := by
  rw [globMd, globMd]
  rcases S.write_keys p c with hk | hk
  · rw [hk]
  · rw [hk, List.filter_append]
    simp [List.filter, h]

theorem wlookup_nil (p : String) : wlookup [] p = none := rfl

theorem wlookup_cons (w : String × List Nat) (ws : List (String × List Nat))
    (p : String) :
    wlookup (w :: ws) p = (wlookup ws p).or (if w.1 = p then some w.2 else none) := by
  rw [wlookup, wlookup, List.reverse_cons, List.find?_append, Option.map_or']
  by_cases hw : w.1 = p
  · rw [if_pos hw]
    rw [show List.find? (fun x => decide (x.1 = p)) [w] = some w from by
      simp [List.find?_cons, hw]]
    rfl
  · rw [if_neg hw]
    rw [show List.find? (fun x => decide (x.1 = p)) [w] = none from by
      simp [List.find?_cons, hw]]
    rfl

theorem read_applyWrites (ws : List (String × List Nat)) (S : FS) (q : String) :
    (applyWrites S ws).read q = (wlookup ws q).or (S.read q) := by
  induction ws generalizing S with
  | nil => rw [wlookup_nil, Option.none_or]; rfl
  | cons w ws ih =>
    rw [show applyWrites S (w :: ws) = applyWrites (S.write w.1 w.2) ws from rfl]
    rw [ih, FS.read_write, wlookup_cons]
    rcases hl : wlookup ws q with _ | v
    · rw [Option.none_or, Option.none_or]
      by_cases hq : q = w.1
      · rw [if_pos hq, if_pos hq.symm]
        rfl
      · rw [if_neg hq, if_neg (fun h => hq h.symm), Option.none_or]
    · rfl


theorem traceResults_congr {R : Renderer} {f g : String → Option (List Nat)}
    {mds : List String} (h : ∀ md ∈ mds, f md = g md) :
    traceResults R f mds = traceResults R g mds :=
  List.map_congr_left (fun md hmd => by rw [h md hmd])

theorem traceWrites_congr {R : Renderer} {f g : String → Option (List Nat)}
    {mds : List String} (h : ∀ md ∈ mds, f md = g md) :
    traceWrites R f mds = traceWrites R g mds :=
  List.filterMap_congr (fun md hmd => by rw [h md hmd])

theorem traceLines_congr {R : Renderer} {f g : String → Option (List Nat)}
    {mds : List String} (h : ∀ md ∈ mds, f md = g md) :
    traceLines R f mds = traceLines R g mds := by
  rw [traceLines, traceLines, List.map_congr_left (fun md hmd => by rw [h md hmd])]

theorem traceWrites_not_matching (R : Renderer) (readF : String → Option (List Nat))
    (mds : List String) :
    ∀ w ∈ traceWrites R readF mds, matchesGlob w.1 = false := by
  intro w hw
  rw [traceWrites] at hw
  obtain ⟨md, _, hmd⟩ := List.mem_filterMap.mp hw
  rcases hres : pipelineResult R (readF md) md with e | bs
  · rw [hres] at hmd
    exact absurd hmd (by simp)
  · rw [hres] at hmd
    injection hmd with hmd
    rw [← hmd]
    exact matchesGlob_pdfName md

theorem batch_foldl (R : Renderer) (mds : List String) (fs : FS) (n : Nat)
    (out : List String) (hmd : ∀ md ∈ mds, ['.', 'm', 'd'] <:+ md.data) :
    mds.foldl (batchStep R) (fs, n, out) =
      (applyWrites fs (traceWrites R fs.read mds),
       n + countOk (traceResults R fs.read mds),
       out ++ traceLines R fs.read mds) := by
  induction mds generalizing fs n out with
  | nil =>
    simp [traceWrites, traceResults, traceLines, countOk, applyWrites]
  | cons md rest ih =>
    have hrest : ∀ q ∈ rest, ['.', 'm', 'd'] <:+ q.data :=
      fun q hq => hmd q (List.mem_cons_of_mem md hq)
    rw [List.foldl_cons]
    rcases hres : pipelineResult R (fs.read md) md with e | bs
    · have hstep : batchStep R (fs, n, out) md =
          (fs, n, out ++ [convertingMsg md (pdfName md), errLine md e, failedMsg md]) := by
        simp [batchStep, convert_md_to_pdf, hres]
      rw [hstep, ih fs n _ hrest]
      simp only [traceWrites, traceResults, traceLines, List.filterMap_cons, List.map_cons,
        List.flatten_cons, hres, countOk, List.countP_cons, stepLines, Except.isOk,
        Except.toBool]
      rw [Prod.ext_iff, Prod.ext_iff]
      refine ⟨rfl, by simp, by simp [List.append_assoc]⟩
    · have hreads : ∀ q ∈ rest, (fs.write (pdfName md) bs).read q = fs.read q := by
        intro q hq
        rw [FS.read_write]
        rw [if_neg (fun hqe => pdfName_ne_of_md_suffix (hrest q hq) hqe.symm)]
      have hstep : batchStep R (fs, n, out) md =
          (fs.write (pdfName md) bs, n + 1,
            out ++ [convertingMsg md (pdfName md), successMsg (pdfName md)]) := by
        simp [batchStep, convert_md_to_pdf, hres]
      rw [hstep, ih (fs.write (pdfName md) bs) (n + 1) _ hrest]
      rw [traceWrites_congr hreads, traceResults_congr hreads, traceLines_congr hreads]
      simp only [traceWrites, traceResults, traceLines, List.filterMap_cons, List.map_cons,
        List.flatten_cons, hres, countOk, List.countP_cons, stepLines, Except.isOk,
        Except.toBool]
      rw [Prod.ext_iff, Prod.ext_iff]
      refine ⟨rfl, by simp [Nat.add_comm, Nat.add_assoc, Nat.add_left_comm],
        by simp [List.append_assoc]⟩

/-! ### The sorted file list -/

theorem sortedMdFiles_perm (fs : FS) : (sortedMdFiles fs).Perm (globMd fs) :=
  List.mergeSort_perm (globMd fs) _

theorem sortedMdFiles_sorted (fs : FS) :
    (sortedMdFiles fs).Sorted (fun a b => a ≤ b) :=
  List.sorted_mergeSort' (globMd fs)

theorem mem_sortedMdFiles {fs : FS} {p : String} :
    p ∈ sortedMdFiles fs ↔ p ∈ fs.map Prod.fst ∧ matchesGlob p = true := by
  rw [(sortedMdFiles_perm fs).mem_iff, globMd, List.mem_filter]

theorem sortedMdFiles_md_suffix {fs : FS} :
    ∀ md ∈ sortedMdFiles fs, ['.', 'm', 'd'] <:+ md.data :=
  fun _ hmd => matchesGlob_md_suffix (mem_sortedMdFiles.mp hmd).2

theorem sortedMdFiles_eq_nil_iff {fs : FS} :
    sortedMdFiles fs = [] ↔ globMd fs = [] := by
  constructor
  · intro h
    have := sortedMdFiles_perm fs
    rw [h] at this
    exact this.symm.eq_nil
  · intro h
    rw [sortedMdFiles, h, List.mergeSort_nil]

/-! ### Characterization of a full `main()` run -/

theorem mainRun_empty {R : Renderer} {fs : FS} (h : globMd fs = []) :
    mainRun R fs = { out := [startMsg, noneFoundMsg], fs := fs, success := 0, total := 0 } := by
  rw [mainRun]
  rw [if_pos (sortedMdFiles_eq_nil_iff.mpr h)]

theorem mainRun_nonempty {R : Renderer} {fs : FS} (h : globMd fs ≠ []) :
    mainRun R fs =
      { out := [startMsg, foundMsg (sortedMdFiles fs).length] ++
          traceLines R fs.read (sortedMdFiles fs) ++
          [summaryMsg (countOk (traceResults R fs.read (sortedMdFiles fs)))
            (sortedMdFiles fs).length, checkFolderMsg],
        fs := applyWrites fs (traceWrites R fs.read (sortedMdFiles fs)),
        success := countOk (traceResults R fs.read (sortedMdFiles fs)),
        total := (sortedMdFiles fs).length } := by
  rw [mainRun]
  rw [if_neg (fun he => h (sortedMdFiles_eq_nil_iff.mp he))]
  rw [batch_foldl R (sortedMdFiles fs) fs 0 [] sortedMdFiles_md_suffix]
  rw [List.nil_append, Nat.zero_add]

/-! ### Invariance of the glob and of `.md` reads under a run's writes -/

theorem globMd_applyWrites (ws : List (String × List Nat)) (S : FS)
    (h : ∀ w ∈ ws, matchesGlob w.1 = false) :
    globMd (applyWrites S ws) = globMd S := by
  induction ws generalizing S with
  | nil => rfl
  | cons w ws ih =>
    rw [show applyWrites S (w :: ws) = applyWrites (S.write w.1 w.2) ws from rfl]
    rw [ih (S.write w.1 w.2) (fun v hv => h v (List.mem_cons_of_mem w hv))]
    exact globMd_write S w.1 w.2 (h w (List.mem_cons_self w ws))

theorem wlookup_eq_none {ws : List (String × List Nat)} {q : String}
    (h : ∀ w ∈ ws, w.1 ≠ q) : wlookup ws q = none := by
  rw [wlookup, List.find?_eq_none.mpr, Option.map_none']
  intro w hw
  simp only [decide_eq_true_eq]
  exact h w (List.mem_reverse.mp hw)

/-- Every write of a trace goes to a path whose characters nowhere contain
`".md"`. -/
theorem traceWrites_no_md (R : Renderer) (readF : String → Option (List Nat))
    (mds : List String) :
    ∀ w ∈ traceWrites R readF mds, hasMd w.1.data = false := by
  intro w hw
  rw [traceWrites] at hw
  obtain ⟨md, _, hmd⟩ := List.mem_filterMap.mp hw
  rcases hres : pipelineResult R (readF md) md with e | bs
  · rw [hres] at hmd
    exact absurd hmd (by simp)
  · rw [hres] at hmd
    injection hmd with hmd
    rw [← hmd]
    exact hasMd_pdfName md

/-- Applying a trace's writes never changes the bytes found at any path that
ends in `".md"` — in particular at any input path. -/
theorem read_applyWrites_md_suffix (R : Renderer) (readF : String → Option (List Nat))
    (mds : List String) (S : FS) {q : String} (hq : ['.', 'm', 'd'] <:+ q.data) :
    (applyWrites S (traceWrites R readF mds)).read q = S.read q := by
  rw [read_applyWrites, wlookup_eq_none, Option.none_or]
  intro w hw he
  have h1 : hasMd q.data = true := hasMd_of_md_suffix hq
  have h2 := traceWrites_no_md R readF mds w hw
  rw [he, h1] at h2
  exact absurd h2 (by simp)

/-! ### The claims -/

/-- C1: for every run of the batch driver over a directory with at least one
matching file, the summary line at the end of the output reports exactly
`M/N`, where `N` is the number of matched files and `M` is the number of files
whose per-file conversion returned `True` (`traceResults` lists, in loop
order, the outcome of each `convert_md_to_pdf` call — `batch_foldl` shows the
loop's counter accumulates exactly these outcomes). -/
theorem batch_summary_counts (R : Renderer) (fs : FS) (h : globMd fs ≠ []) :
    (mainRun R fs).success = countOk (traceResults R fs.read (sortedMdFiles fs)) ∧
    (mainRun R fs).total = (sortedMdFiles fs).length ∧
    (mainRun R fs).total = (globMd fs).length ∧
    (mainRun R fs).out =
      ([startMsg, foundMsg (mainRun R fs).total] ++
        traceLines R fs.read (sortedMdFiles fs)) ++
      [summaryMsg (mainRun R fs).success (mainRun R fs).total, checkFolderMsg] := by
  rw [mainRun_nonempty h]
  refine ⟨rfl, rfl, (sortedMdFiles_perm fs).length_eq, ?_⟩
  simp [List.append_assoc]

theorem batch_summary_counts_witness :
    (mainRun exampleRenderer exampleFS).success =
      countOk (traceResults exampleRenderer exampleFS.read (sortedMdFiles exampleFS)) ∧
    (mainRun exampleRenderer exampleFS).total = (sortedMdFiles exampleFS).length ∧
    (mainRun exampleRenderer exampleFS).total = (globMd exampleFS).length ∧
    (mainRun exampleRenderer exampleFS).out =
      ([startMsg, foundMsg (mainRun exampleRenderer exampleFS).total] ++
        traceLines exampleRenderer exampleFS.read (sortedMdFiles exampleFS)) ++
      [summaryMsg (mainRun exampleRenderer exampleFS).success
        (mainRun exampleRenderer exampleFS).total, checkFolderMsg] :=
  batch_summary_counts exampleRenderer exampleFS (by decide)

/-- C2 counterexample: the derived output path is NOT always the input path
with only the final extension swapped: `str.replace('.md', '.pdf')` replaces
every occurrence, so the glob-matched input `Concurency/a.md.md` is written to
`Concurency/a.pdf.pdf`, not to `Concurency/a.md.pdf`. -/
theorem pdfName_not_extension_swap :
    matchesGlob "Concurency/a.md.md" = true ∧
    pdfName "Concurency/a.md.md" = "Concurency/a.pdf.pdf" ∧
    pdfName "Concurency/a.md.md" ≠ "Concurency/a.md.pdf" := by
  refine ⟨by decide, by decide, by decide⟩

/-- C2 (amended): the derived output path is the input path with every
occurrence of `".md"` replaced by `".pdf"`; when `".md"` occurs nowhere except
as the final extension, this is exactly the extension swap. -/
theorem pdfName_extension_swap (s : String) (h : hasMd s.data = false) :
    pdfName (s ++ ".md") = s ++ ".pdf" := by
  show (⟨replaceMdPdf (s ++ ".md").data⟩ : String) = s ++ ".pdf"
  rw [show (s ++ ".md").data = s.data ++ ['.', 'm', 'd'] from rfl]
  rw [replaceMdPdf_no_md h]
  rfl

theorem pdfName_extension_swap_witness :
    hasMd "Concurency/a".data = false ∧
    pdfName ("Concurency/a" ++ ".md") = "Concurency/a" ++ ".pdf" :=
  ⟨by decide, pdfName_extension_swap "Concurency/a" (by decide)⟩

/-- C3: whenever the per-file pipeline raises (read, render or write), the
`except` handler makes `convert_md_to_pdf` return `False` with the filesystem
untouched and print one diagnostic line containing the offending file's path;
and the loop then goes on to fold over the remaining files from the very same
state, so one failure never aborts the rest of the batch. -/
theorem convert_error_handling (R : Renderer) (fs : FS) (md out_path e : String)
    (h : pipelineResult R (fs.read md) md = .error e) :
    convert_md_to_pdf R fs md out_path = (fs, false, [errLine md e]) ∧
    md.data <:+: (errLine md e).data ∧
    (∀ (rest : List String) (n : Nat) (outp : List String),
      List.foldl (batchStep R) (fs, n, outp) (md :: rest) =
        List.foldl (batchStep R)
          (fs, n, outp ++ [convertingMsg md (pdfName md), errLine md e, failedMsg md])
          rest) := by
  refine ⟨by rw [convert_md_to_pdf, h], ?_, ?_⟩
  · refine ⟨"Error converting ".data, (": " ++ e).data, ?_⟩
    show "Error converting ".data ++ md.data ++ (": " ++ e).data = (errLine md e).data
    rw [show (errLine md e).data =
      (("Error converting " ++ md) ++ ": " ++ e).data from rfl]
    simp [List.append_assoc]
  · intro rest n outp
    rw [List.foldl_cons]
    rw [show batchStep R (fs, n, outp) md =
        (fs, n, outp ++ [convertingMsg md (pdfName md), errLine md e, failedMsg md]) from by
      simp [batchStep, convert_md_to_pdf, h]]

theorem convert_error_handling_witness :
    pipelineResult failingRenderer (FS.read [] "Concurency/a.md") "Concurency/a.md" =
      .error (noFileMsg "Concurency/a.md") ∧
    convert_md_to_pdf failingRenderer [] "Concurency/a.md" "Concurency/a.pdf" =
      ([], false, [errLine "Concurency/a.md" (noFileMsg "Concurency/a.md")]) ∧
    "Concurency/a.md".data <:+:
      (errLine "Concurency/a.md" (noFileMsg "Concurency/a.md")).data :=
  ⟨rfl,
    (convert_error_handling failingRenderer [] "Concurency/a.md" "Concurency/a.pdf"
      (noFileMsg "Concurency/a.md") rfl).1,
    (convert_error_handling failingRenderer [] "Concurency/a.md" "Concurency/a.pdf"
      (noFileMsg "Concurency/a.md") rfl).2.1⟩

/-- C4 (code bug in the script): when a dependency is missing the process
exits without converting anything, but it never prints the installation hint:
the unguarded top-level `import markdown` / `from weasyprint import ...`
raise before `main()` is entered, so the `try/except ImportError` hint handler
at lines 120-126 is dead code — stdout is empty and the exit status is 1. -/
theorem missing_dependency_no_hint (d : Deps) (R : Renderer) (fs : FS)
    (h : d.markdown = false ∨ d.weasyprint = false) :
    programRun d R fs = { out := [], fs := fs, exitCode := 1 } ∧
    installHintMsg ∉ (programRun d R fs).out ∧
    (programRun d R fs).fs = fs := by
  have hd : (d.markdown && d.weasyprint) = false := by
    rcases h with h | h <;> simp [h]
  rw [programRun, if_neg (by simp [hd])]
  exact ⟨rfl, by simp, rfl⟩

theorem missing_dependency_no_hint_witness :
    programRun ⟨false, true⟩ exampleRenderer exampleFS =
      { out := [], fs := exampleFS, exitCode := 1 } ∧
    installHintMsg ∉ (programRun ⟨false, true⟩ exampleRenderer exampleFS).out ∧
    (programRun ⟨false, true⟩ exampleRenderer exampleFS).fs = exampleFS :=
  missing_dependency_no_hint ⟨false, true⟩ exampleRenderer exampleFS (Or.inl rfl)

/-- C5: the batch driver's file list contains exactly the existing paths that
match the `Concurency/*.md` pattern, in ascending lexicographic order, each
exactly once (when the directory listing has no duplicate paths). -/
theorem enumeration_sorted_exact (fs : FS) (hnd : (fs.map Prod.fst).Nodup) :
    (sortedMdFiles fs).Sorted (fun a b => a ≤ b) ∧
    (sortedMdFiles fs).Nodup ∧
    (∀ p, p ∈ sortedMdFiles fs ↔ p ∈ fs.map Prod.fst ∧ matchesGlob p = true) ∧
    (sortedMdFiles fs).Perm (globMd fs) :=
  ⟨sortedMdFiles_sorted fs,
    ((sortedMdFiles_perm fs).nodup_iff).mpr (hnd.filter _),
    fun _ => mem_sortedMdFiles,
    sortedMdFiles_perm fs⟩

theorem enumeration_sorted_exact_witness :
    (sortedMdFiles exampleFS).Sorted (fun a b => a ≤ b) ∧
    (sortedMdFiles exampleFS).Nodup ∧
    (∀ p, p ∈ sortedMdFiles exampleFS ↔
      p ∈ exampleFS.map Prod.fst ∧ matchesGlob p = true) ∧
    (sortedMdFiles exampleFS).Perm (globMd exampleFS) :=
  enumeration_sorted_exact exampleFS (by decide)

/-- C6: a directory with zero matching files makes `main` print the start
line and the "none found" line only, write nothing, attempt no conversion
(zero files processed) and exit with status 0. -/
theorem empty_directory_reports (d : Deps) (R : Renderer) (fs : FS)
    (h : globMd fs = []) (hd : d.markdown = true ∧ d.weasyprint = true) :
    mainRun R fs =
      { out := [startMsg, noneFoundMsg], fs := fs, success := 0, total := 0 } ∧
    (programRun d R fs).fs = fs ∧
    (programRun d R fs).exitCode = 0 := by
  have hm := mainRun_empty (R := R) h
  refine ⟨hm, ?_, ?_⟩
  · rw [programRun, if_pos (by simp [hd.1, hd.2]), hm]
  · rw [programRun, if_pos (by simp [hd.1, hd.2])]

theorem empty_directory_reports_witness :
    mainRun exampleRenderer exampleFS2 =
      { out := [startMsg, noneFoundMsg], fs := exampleFS2, success := 0, total := 0 } ∧
    (programRun ⟨true, true⟩ exampleRenderer exampleFS2).fs = exampleFS2 ∧
    (programRun ⟨true, true⟩ exampleRenderer exampleFS2).exitCode = 0 :=
  empty_directory_reports ⟨true, true⟩ exampleRenderer exampleFS2 (by decide) ⟨rfl, rfl⟩

/-- C7: once the dependencies import (the only way `main()` is reached), the
process always exits with status 0 — for every renderer behavior and every
directory content, i.e. no matter how many per-file conversions fail. -/
theorem exit_success_regardless (d : Deps) (R : Renderer) (fs : FS)
    (hd : d.markdown = true ∧ d.weasyprint = true) :
    (programRun d R fs).exitCode = 0 := by
  rw [programRun, if_pos (by simp [hd.1, hd.2])]

theorem exit_success_regardless_witness :
    (programRun ⟨true, true⟩ failingRenderer badUtf8FS).exitCode = 0 :=
  exit_success_regardless ⟨true, true⟩ failingRenderer badUtf8FS ⟨rfl, rfl⟩

/-- C8: re-running the batch on the directory produced by a first run selects
exactly the same input files (the written `.pdf` outputs never match the
`*.md` pattern), and the second run's whole-file overwrites leave every path's
content exactly as the first run left it. -/
theorem rerun_idempotent (R : Renderer) (fs : FS) :
    globMd ((mainRun R fs).fs) = globMd fs ∧
    sortedMdFiles ((mainRun R fs).fs) = sortedMdFiles fs ∧
    ∀ p, ((mainRun R ((mainRun R fs).fs)).fs).read p = ((mainRun R fs).fs).read p := by
  by_cases h : globMd fs = []
  · rw [mainRun_empty h, mainRun_empty h]
    exact ⟨rfl, rfl, fun p => rfl⟩
  · have hfs1 : (mainRun R fs).fs =
        applyWrites fs (traceWrites R fs.read (sortedMdFiles fs)) := by
      rw [mainRun_nonempty h]
    have hglob : globMd ((mainRun R fs).fs) = globMd fs := by
      rw [hfs1]
      exact globMd_applyWrites _ fs (traceWrites_not_matching R fs.read _)
    have hsorted : sortedMdFiles ((mainRun R fs).fs) = sortedMdFiles fs := by
      rw [sortedMdFiles, sortedMdFiles, hglob]
    have hreads : ∀ q ∈ sortedMdFiles fs,
        ((mainRun R fs).fs).read q = fs.read q := by
      intro q hq
      rw [hfs1]
      exact read_applyWrites_md_suffix R fs.read _ fs (sortedMdFiles_md_suffix q hq)
    refine ⟨hglob, hsorted, ?_⟩
    intro p
    have h1 : globMd ((mainRun R fs).fs) ≠ [] := by rw [hglob]; exact h
    rw [mainRun_nonempty h1, hsorted]
    rw [traceWrites_congr (f := ((mainRun R fs).fs).read) (g := fs.read) hreads]
    rw [read_applyWrites, hfs1, read_applyWrites]
    rcases wlookup (traceWrites R fs.read (sortedMdFiles fs)) p with _ | v
    · rw [Option.none_or, Option.none_or]
    · rfl

/-- C9: a file whose bytes are not valid UTF-8 makes the strict UTF-8 read
raise `UnicodeDecodeError`; the handler catches it, prints the diagnostic and
returns `False` — `convert_md_to_pdf` is total, it never propagates the
exception to the caller. -/
theorem invalid_utf8_returns_false (R : Renderer) (fs : FS) (md out_path : String)
    (bs : List Nat) (hread : fs.read md = some bs) (hdec : utf8Decode? bs = none) :
    convert_md_to_pdf R fs md out_path = (fs, false, [errLine md decodeErrMsg]) := by
  rw [convert_md_to_pdf, hread, pipelineResult]
  rw [hdec]

theorem invalid_utf8_returns_false_witness :
    FS.read badUtf8FS "Concurency/b.md" = some [255] ∧
    utf8Decode? [255] = none ∧
    convert_md_to_pdf exampleRenderer badUtf8FS "Concurency/b.md" "Concurency/b.pdf" =
      (badUtf8FS, false, [errLine "Concurency/b.md" decodeErrMsg]) :=
  ⟨by decide, by decide,
    invalid_utf8_returns_false exampleRenderer badUtf8FS "Concurency/b.md"
      "Concurency/b.pdf" [255] (by decide) (by decide)⟩

/-- C10: the HTML document handed to the PDF renderer is a deterministic
function of the input file's text content and its path: equal contents and
equal paths give character-for-character equal documents, and the document is
always the fixed template around the fixed stylesheet, with the title being
the input's base name and the body the rendered Markdown fragment. -/
theorem html_document_deterministic (render : String → String)
    (c₁ c₂ p₁ p₂ : String) (hc : c₁ = c₂) (hp : p₁ = p₂) :
    full_html p₁ (render c₁) = full_html p₂ (render c₂) ∧
    full_html p₁ (render c₁) =
      doc_before_title ++ basename p₁ ++ doc_after_title ++ css_content ++
        doc_after_style ++ render c₁ ++ doc_tail := by
  subst hc
  subst hp
  exact ⟨rfl, rfl⟩

theorem html_document_deterministic_witness :
    full_html "Concurency/x.md" (id "# Title") =
      full_html "Concurency/x.md" (id "# Title") ∧
    full_html "Concurency/x.md" (id "# Title") =
      doc_before_title ++ basename "Concurency/x.md" ++ doc_after_title ++
        css_content ++ doc_after_style ++ id "# Title" ++ doc_tail :=
  html_document_deterministic id "# Title" "# Title" "Concurency/x.md"
    "Concurency/x.md" rfl rfl
